import Mathlib

/-!
# Verification of the log-lib logging façade

A shallow embedding of `src/logger.ts` (the current revision, the one with
level filtering, the `stacktrace` column and the diagnostic enrichment
pipeline).  JavaScript runtime values that flow through the logger are
modelled by an explicit `JsVal` type over a heap of object nodes; the
module-level mutable state (`conn`, `dbInitialized`, `currentLogLevel`) is
modelled by an explicit `LoggerState` record that the embedded functions
thread; observable effects (console lines, issued INSERTs, network
operations, file accesses) are collected in a `Trace`.  Outcomes of external
operations (database queries, the serializer's try-block) are supplied as
explicit parameters so that the catch handlers in the source are exercised.
-/

namespace LogLib

/-! ## JavaScript values

Object identity (needed by the `visited` set of `buildCauseChain`) is
modelled by indices into a heap (`List JsObj`).  `eobj` is the fresh empty
object literal produced by `safeMeta`; `enriched` is the object literal
`{stack, name, causeChain, ...metaObj}` built inside `logger.error` /
`logger.errorEnriched`.  Both have object type and are truthy. -/

inductive JsVal where
  /-- a heap object, by reference -/
  | obj : Nat → JsVal
  | str : String → JsVal
  | num : Int → JsVal
  | boolv : Bool → JsVal
  | nullv : JsVal
  | undef : JsVal
  /-- a fresh `\x7b\x7d` literal (result of `safeMeta` on a falsy value) -/
  | eobj : JsVal
  /-- the `\x7bstack, name, causeChain, ...meta\x7d` literal of the error paths -/
  | enriched : JsVal → JsVal → List String → JsVal → JsVal
deriving Repr, DecidableEq

/-- One heap object.  `json` is the (opaque, externally computed) output of
`fast-safe-stringify` on this object, and `toStr` the output of JavaScript
`String(...)` on it; both are oracles for external library behaviour.
`isError` records whether the object passes `instanceof Error`. -/
structure JsObj where
  name : JsVal := JsVal.undef
  message : JsVal := JsVal.undef
  cause : JsVal := JsVal.undef
  stack : JsVal := JsVal.undef
  isError : Bool := false
  json : String := ""
  toStr : String := "[object Object]"
deriving Repr, DecidableEq

/-- JavaScript truthiness. -/
def truthy : JsVal → Bool
  | JsVal.str s => s ≠ ""
  | JsVal.num n => n ≠ 0
  | JsVal.boolv b => b
  | JsVal.nullv => false
  | JsVal.undef => false
  | JsVal.obj _ => true
  | JsVal.eobj => true
  | JsVal.enriched _ _ _ _ => true

/-- JS `typeof v === "object"` (note: `typeof null` is `"object"` in JS). -/
def isObjectType : JsVal → Bool
  | JsVal.obj _ => true
  | JsVal.eobj => true
  | JsVal.enriched _ _ _ _ => true
  | JsVal.nullv => true
  | _ => false

/-- Property access `v.name`. -/
def getName (heap : List JsObj) : JsVal → JsVal
  | JsVal.obj id => match heap[id]? with
    | some node => node.name
    | none => JsVal.undef
  | JsVal.enriched _ n _ _ => n
  | _ => JsVal.undef

/-- Property access `v.message`. -/
def getMessage (heap : List JsObj) : JsVal → JsVal
  | JsVal.obj id => match heap[id]? with
    | some node => node.message
    | none => JsVal.undef
  | _ => JsVal.undef

/-- Property access `v.cause`. -/
def getCause (heap : List JsObj) : JsVal → JsVal
  | JsVal.obj id => match heap[id]? with
    | some node => node.cause
    | none => JsVal.undef
  | _ => JsVal.undef

/-- Property access `v.stack`. -/
def getStack (heap : List JsObj) : JsVal → JsVal
  | JsVal.obj id => match heap[id]? with
    | some node => node.stack
    | none => JsVal.undef
  | JsVal.enriched s _ _ _ => s
  | _ => JsVal.undef

/-- JS `message instanceof Error`. -/
def isErrorInstance (heap : List JsObj) : JsVal → Bool
  | JsVal.obj id => match heap[id]? with
    | some node => node.isError
    | none => false
  | _ => false

/-- JavaScript `String(v)` / template-literal interpolation. -/
def jsToStr (heap : List JsObj) : JsVal → String
  | JsVal.str s => s
  | JsVal.num n => toString n
  | JsVal.boolv b => if b then "true" else "false"
  | JsVal.nullv => "null"
  | JsVal.undef => "undefined"
  | JsVal.obj id => match heap[id]? with
    | some node => node.toStr
    | none => "[object Object]"
  | JsVal.eobj => "[object Object]"
  | JsVal.enriched _ _ _ _ => "[object Object]"

/-- Double-quote a string (JSON rendering of a string value; escaping of
special characters inside the string is not modelled — no claim depends on
it). -/
def jsonQuote (s : String) : String := "\"" ++ s ++ "\""

/-- The serializer `fast-safe-stringify`.  The library never throws; its output on heap
objects is the per-node `json` oracle.  The rendering of the dynamically
built `enriched` literal is a fixed composition of its parts (opaque to
every claim). -/
def jsonStringify (heap : List JsObj) : JsVal → String
  | JsVal.str s => jsonQuote s
  | JsVal.num n => toString n
  | JsVal.boolv b => if b then "true" else "false"
  | JsVal.nullv => "null"
  | JsVal.undef => "undefined"
  | JsVal.obj id => match heap[id]? with
    | some node => node.json
    | none => "undefined"
  | JsVal.eobj => "\x7b\x7d"
  | JsVal.enriched s n cc base =>
      "\x7b\"stack\":" ++ jsonStringify heap s ++ ",\"name\":" ++ jsonStringify heap n
        ++ ",\"causeChain\":[" ++ String.intercalate "," (cc.map jsonQuote) ++ "],"
        ++ jsonStringify heap base ++ "\x7d"

/-! ## Environment, state and effect traces -/

/-- The process environment and the per-call ambient data: `ENV_ID`,
`process.env.LOG_LEVEL`, `process.cwd()`, the current wall-clock ISO string,
and the stack text produced by `new Error().stack` at the current call site
(`none` models a missing stack). -/
structure Env where
  envId : String := ""
  logLevelVar : Option String := none
  cwd : String := ""
  now : String := "1970-01-01T00:00:00.000Z"
  capturedStack : Option String := none
deriving Repr, DecidableEq

/-- One row handed to the `INSERT INTO logs ...` statement (the `timestamp`
column is filled server-side by `NOW()` and is not modelled). -/
structure DBInsert where
  level : String
  message : String
  meta : String
  stacktrace : String
deriving Repr, DecidableEq

/-- Observable effects of a call: console lines, issued INSERT statements,
other network operations (pool creations, setup queries), and file-system
accesses (`existsSync` / `readFileSync`). -/
structure Trace where
  console : List String := []
  inserts : List DBInsert := []
  netOps : Nat := 0
  fileAccesses : List String := []
deriving Repr, DecidableEq

/-- Sequential composition of effect traces. -/
def Trace.seq (t₁ t₂ : Trace) : Trace :=
  ⟨t₁.console ++ t₂.console, t₁.inserts ++ t₂.inserts,
   t₁.netOps + t₂.netOps, t₁.fileAccesses ++ t₂.fileAccesses⟩

/-- The module-level mutable variables of `logger.ts`: `conn` (the pool
handle, identified by a number; `none` is the initial `null`),
`dbInitialized`, and `currentLogLevel`. -/
structure LoggerState where
  conn : Option Nat := none
  dbInitialized : Bool := false
  currentLogLevel : Nat := 1
deriving Repr, DecidableEq

/-! ## String helpers and stack-trace processing

JavaScript string operations are modelled per code point on the string's
character list (see the design note of the spec on code-point boundaries). -/

/-- Split a character list on a separator, with a step counter bounded by
the list length (each step consumes at least one character, so the counter
never runs out at its `l.length` starting value). -/
def jsSplitGo (sep : List Char) : Nat → List Char → List Char → List (List Char)
  | _, [], acc => [acc.reverse]
  | 0, l, acc => [acc.reverse ++ l]
  | fuel + 1, c :: rest, acc =>
    if sep.isPrefixOf (c :: rest) then
      acc.reverse :: jsSplitGo sep fuel (rest.drop (sep.length - 1)) []
    else jsSplitGo sep fuel rest (c :: acc)

/-- JS `String.split` on a non-empty separator (JS `str.split(sep)`). -/
def jsSplit (s sep : String) : List String :=
  if sep = "" then [s]
  else (jsSplitGo sep.toList s.toList.length s.toList []).map (fun l => String.mk l)

/-- JS `String.startsWith`. -/
def strStarts (s p : String) : Bool := p.toList.isPrefixOf s.toList

/-- JS `String.endsWith`. -/
def strEnds (s p : String) : Bool := p.toList.isSuffixOf s.toList

/-- Longest prefix whose characters satisfy `p`. -/
def strTakeWhile (p : Char → Bool) (s : String) : String :=
  String.mk (s.toList.takeWhile p)

/-- The first `n` characters (JS `slice(0, n)`). -/
def strTake (s : String) (n : Nat) : String := String.mk (s.toList.take n)

/-- All but the first `n` characters (JS `slice(n)`). -/
def strDrop (s : String) (n : Nat) : String := String.mk (s.toList.drop n)

/-- JS `parseInt` on an all-digit token. -/
def parseNatDigits (s : String) : Nat :=
  s.toList.foldl (fun a c => a * 10 + (c.toNat - 48)) 0

/-- Does `hay` contain `needle` as a substring (JS `String.includes`)? -/
def containsSub (hay needle : String) : Bool :=
  hay.toList.tails.any (fun t => needle.toList.isPrefixOf t)

/-- The helper `makePathRelative`: strip the project root from an absolute path
(`path.relative` on the prefix case). -/
def makePathRelative (cwd filePath : String) : String :=
  if strStarts filePath cwd then
    let rest := filePath.drop cwd.length
    if strStarts rest "/" then rest.drop 1 else rest
  else filePath

/-- Does `t` have the shape `file:line:col` with numeric nonempty line and
column (the `[^\s]+:\d+:\d+` token of `cleanStackTrace`)? -/
def isFrameTok (t : String) : Bool :=
  match (jsSplit t ":").reverse with
  | c :: l :: f :: fs =>
      c ≠ "" && l ≠ "" && c.toList.all Char.isDigit && l.toList.all Char.isDigit
        && String.intercalate ":" (f :: fs).reverse ≠ ""
  | _ => false

/-- Rewrite one `(...)`-delimited segment of a line: relativize the path
between the parentheses (the `\(([^)]+)\)` replace of `cleanStackTrace`,
modelled on the non-nested parenthesis shapes stack traces exhibit). -/
def parenSeg (cwd seg : String) : String :=
  let inside := strTakeWhile (fun c => c ≠ ')') seg
  if inside.length < seg.length && inside ≠ "" then
    makePathRelative cwd inside ++ seg.drop inside.length
  else seg

/-- Apply `parenSeg` to every parenthesized group of a line. -/
def parenRewriteLine (cwd line : String) : String :=
  match jsSplit line "(" with
  | [] => line
  | first :: rest => String.intercalate "(" (first :: rest.map (parenSeg cwd))

/-- Relativize `at file:line:col` occurrences, word by word (the
`at\s+([^\s]+:\d+:\d+)` replace of `cleanStackTrace`, modelled at token
granularity). -/
def atRewriteWords (cwd : String) : List String → List String
  | [] => []
  | [w] => [w]
  | "at" :: w :: rest =>
      if isFrameTok w then "at" :: makePathRelative cwd w :: atRewriteWords cwd rest
      else "at" :: atRewriteWords cwd (w :: rest)
  | w :: rest => w :: atRewriteWords cwd rest

/-- The helper `cleanStackTrace`: relativize the file paths appearing in every line of
a stack trace.  An empty (falsy) stack yields the empty string. -/
def cleanStackTrace (cwd stack : String) : String :=
  if stack = "" then ""
  else
    String.intercalate "\n"
      ((jsSplit stack "\n").map (fun line =>
        String.intercalate " " (atRewriteWords cwd (jsSplit (parenRewriteLine cwd line) " "))))

/-- The helper `formatStack`: clean the paths, drop a leading `Error...` line that
duplicates the already printed message, keep the first `maxLines` lines and
grey them out.  A falsy stack yields the empty string. -/
def formatStack (cwd : String) (stack : Option String) (maxLines : Nat := 3) : String :=
  match stack with
  | none => ""
  | some s =>
    if s = "" then ""
    else
      let lines := jsSplit (cleanStackTrace cwd s) "\n"
      let lines :=
        if 1 < lines.length && strStarts (lines.headD "") "Error" then lines.drop 1 else lines
      String.intercalate "\n" ((lines.take maxLines).map (fun l => "\x1b[90m" ++ l ++ "\x1b[0m"))

/-- A parsed stack frame (`\x7bfile, line, column\x7d`). -/
structure StackFrame where
  file : String
  line : Nat
  col : Nat
deriving Repr, DecidableEq

/-- Parse a `file:line:col` token whose file part ends in `.ts`. -/
def parseFrameTok (t : String) : Option StackFrame :=
  match (jsSplit t ":").reverse with
  | c :: l :: f :: fs =>
      let file := String.intercalate ":" (f :: fs).reverse
      if strEnds file ".ts" && l ≠ "" && c ≠ ""
          && l.toList.all Char.isDigit && c.toList.all Char.isDigit then
        some ⟨file, parseNatDigits l, parseNatDigits c⟩
      else none
  | _ => none

/-- The first `(.ts-file:line:col)` parenthesized group of a line (the
`\(([^()]+\.ts):(\d+):(\d+)\)` match). -/
def parenFrameOfLine (line : String) : Option StackFrame :=
  match jsSplit line "(" with
  | [] => none
  | _ :: rest =>
      rest.firstM (fun seg =>
        let inside := strTakeWhile (fun c => c ≠ ')') seg
        if inside.length < seg.length && inside ≠ "" then parseFrameTok inside else none)

/-- The first bare `file.ts:line:col` token of a line (the
`\s(at\s)?([^()]+\.ts):(\d+):(\d+)` match, at token granularity). -/
def bareFrameOfLine (line : String) : Option StackFrame :=
  (jsSplit line " ").drop 1 |>.firstM (fun w =>
    if containsSub w "(" || containsSub w ")" then none else parseFrameTok w)

/-- The parser `extractFirstProjectFrame`: scan the cleaned stack lines in order and
return the first frame matching either accepted line shape. -/
def extractFirstProjectFrame (cwd : String) (stack : Option String) : Option StackFrame :=
  match stack with
  | none => none
  | some s =>
    if s = "" then none
    else
      (jsSplit (cleanStackTrace cwd s) "\n").firstM (fun l =>
        match parenFrameOfLine l with
        | some fr => some fr
        | none => bareFrameOfLine l)

/-- The helper `extractFullTsStacktrace`: keep only the TypeScript lines of the cleaned
stack. -/
def extractFullTsStacktrace (cwd : String) (stack : Option String) : String :=
  match stack with
  | none => ""
  | some s =>
    if s = "" then ""
    else
      String.intercalate "\n"
        ((jsSplit (cleanStackTrace cwd s) "\n").filter
          (fun l => containsSub l ".ts:" || containsSub l ".ts)"))

/-- The helper `captureCallStack`: clean a freshly captured stack, drop its first
(`Error:`) line and keep only the TypeScript lines. -/
def captureCallStack (env : Env) : String :=
  match env.capturedStack with
  | none => ""
  | some s =>
    if s = "" then ""
    else
      String.intercalate "\n"
        (((jsSplit (cleanStackTrace env.cwd s) "\n").drop 1).filter
          (fun l => containsSub l ".ts:" || containsSub l ".ts)"))

/-- The test `hasProjectTsFrame`: does any raw stack line mention both `/src/` and
`.ts`? -/
def hasProjectTsFrame (stack : Option String) : Bool :=
  match stack with
  | none => false
  | some s =>
    if s = "" then false
    else (jsSplit s "\n").any (fun l => containsSub l "/src/" && containsSub l ".ts")

/-! ## Safe stringification and the cause-chain walker -/

/-- The coercion `safeToStringMessage`: strings pass through unchanged; objects prefer a
truthy string `.message` property, else fall back to `fast-safe-stringify`
truncated to 2000 characters (the serializer never throws, so the `catch`
fallback to `String(message)` is unreachable); other primitives are coerced
with `String(...)`. -/
def safeToStringMessage (heap : List JsObj) (message : JsVal) : String :=
  match message with
  | JsVal.str s => s
  | JsVal.obj id =>
      match heap[id]? with
      | some node =>
          match node.message with
          | JsVal.str m => if m ≠ "" then m else strTake node.json 2000
          | _ => strTake node.json 2000
      | none => jsToStr heap message
  | JsVal.eobj => strTake (jsonStringify heap JsVal.eobj) 2000
  | JsVal.enriched s n cc base =>
      strTake (jsonStringify heap (JsVal.enriched s n cc base)) 2000
  | v => jsToStr heap v

/-- The guard `safeMeta`: falsy metadata becomes a fresh empty object literal. -/
def safeMeta (meta : JsVal) : JsVal :=
  if truthy meta then meta else JsVal.eobj

/-- The title given to one visited cause node: `"name: message"` when the
node's `name` is truthy, else the best-effort string conversion. -/
def nodeTitle (heap : List JsObj) (id : Nat) (node : JsObj) : String :=
  if truthy node.name then jsToStr heap node.name ++ ": " ++ jsToStr heap node.message
  else safeToStringMessage heap (JsVal.obj id)

/-- The loop body of `buildCauseChain`, with an explicit iteration budget.
Each iteration that steps to a cause visits a distinct heap object, so a
budget of `heap.length + 1` can never be exhausted before the loop's own
guards stop it (`causeChainGo_fuel_irrelevant` below); the `eobj`/`enriched`
literals carry no `cause` property, so their single iteration is emitted
without consuming budget. -/
def causeChainGo (heap : List JsObj) (root : JsVal) :
    Nat → List Nat → JsVal → List String
  | 0, _, _ => []
  | fuel + 1, visited, current =>
    match current with
    | JsVal.obj id =>
        match heap[id]? with
        | some node =>
            if id ∈ visited then []
            else
              let title := nodeTitle heap id node
              let rest := causeChainGo heap root fuel (id :: visited) node.cause
              if JsVal.obj id = root then rest else title :: rest
        | none => []
    | JsVal.eobj =>
        if JsVal.eobj = root then []
        else [safeToStringMessage heap JsVal.eobj]
    | JsVal.enriched s n cc base =>
        let cur := JsVal.enriched s n cc base
        if cur = root then []
        else
          [if truthy n then jsToStr heap n ++ ": undefined"
           else safeToStringMessage heap cur]
    | _ => []

/-- The walker `buildCauseChain`: starting from the error itself but only emitting
titles for the nodes after it, follow `cause` references until a non-object,
a falsy value, or an already visited reference is met. -/
def buildCauseChain (heap : List JsObj) (err : JsVal) : List String :=
  causeChainGo heap err (heap.length + 1) [] err

/-! ## Code frames and enhanced stack printing -/

/-- Left-pad a string with spaces to width `n` (`String.padStart`). -/
def padLeft (n : Nat) (s : String) : String :=
  String.mk (List.replicate (n - s.length) ' ') ++ s

/-- Render one line of a code frame. -/
def codeFrameLine (culpritLine col : Nat) (i : Nat) (text : String) : String :=
  let marker := if i + 1 = culpritLine then "\x1b[31m>\x1b[0m" else " "
  let num := padLeft 4 (toString (i + 1))
  let codeLine :=
    if i + 1 = culpritLine && col ≠ 0 then
      text ++ "\n     " ++ String.mk (List.replicate (col - 1) ' ') ++ "\x1b[31m^\x1b[0m"
    else text
  marker ++ " " ++ num ++ " | " ++ codeLine

/-- The renderer `buildCodeFrame`: read the culprit file (through the file system `fs`,
given as a map from absolute path to the file's lines) and render the window
`[line-2, line+2]` clipped to the file, with the culprit line marked and a
caret under the column.  Returns the rendered frame together with the list
of file accesses performed (`existsSync`, then `readFileSync` when the file
exists); a missing frame performs no file access. -/
def buildCodeFrame (env : Env) (fs : String → Option (List String)) :
    Option StackFrame → String × List String
  | none => ("", [])
  | some fr =>
    if fr.file = "" then ("", [])
    else
      let filePath := if strStarts fr.file "/" then fr.file else env.cwd ++ "/" ++ fr.file
      match fs filePath with
      | none => ("", [filePath])
      | some content =>
          let start := fr.line - 3
          let stop := min content.length (fr.line + 2)
          let rendered :=
            (List.range' start (stop - start)).map
              (fun i => codeFrameLine fr.line fr.col i (content.getD i ""))
          (String.intercalate "\n" rendered, [filePath, filePath])

/-- The printer `printStackEnhanced`: print the (line-capped, path-cleaned) stack of an
error-shaped value; in dev mode, when the stack has no project frame, append
a freshly captured call-site stack first, and afterwards print a code frame
for the first project frame when one resolves. -/
def printStackEnhanced (env : Env) (fs : String → Option (List String))
    (heap : List JsObj) (possibleError : JsVal) : Trace :=
  if ¬ truthy possibleError then {}
  else
    match getStack heap possibleError with
    | JsVal.str s =>
        let outputStack :=
          if env.envId = "dev" && ¬ hasProjectTsFrame (some s) then
            match env.capturedStack with
            | some cs =>
                let filtered :=
                  String.intercalate "\n"
                    (((jsSplit cs "\n").filter
                        (fun l => containsSub l "/src/" && containsSub l ".ts")).take 5)
                if filtered ≠ "" then
                  s ++ "\n\nCaptured callsite (added by logger):\n" ++ filtered
                else s
            | none => s
          else s
        let stackLine := formatStack env.cwd (some outputStack)
        if env.envId = "dev" then
          let frame := extractFirstProjectFrame env.cwd (some outputStack)
          let (codeFrame, accesses) := buildCodeFrame env fs frame
          if codeFrame ≠ "" then
            { console := [stackLine, "\n\x1b[36mCode frame:\x1b[0m\n" ++ codeFrame ++ "\n"],
              fileAccesses := accesses }
          else { console := [stackLine], fileAccesses := accesses }
        else { console := [stackLine] }
    | _ => {}

/-! ## Console renderer -/

/-- The `LOG_LEVELS` severity table: `debug < info < warn < error`. -/
def logLevels : String → Option Nat
  | "debug" => some 0
  | "info" => some 1
  | "warn" => some 2
  | "error" => some 3
  | _ => none

/-- One `\x1b[<digits>m`-shaped segment after a `\x1b[` split point. -/
def stripAnsiSeg (seg : String) : String :=
  let ds := strTakeWhile Char.isDigit seg
  let rest := seg.drop ds.length
  if ds ≠ "" && strStarts rest "m" then rest.drop 1
  else "\x1b[" ++ seg

/-- Remove every `\x1b[<digits>m` ANSI colour code from a string. -/
def stripAnsiCodes (s : String) : String :=
  match jsSplit s "\x1b[" with
  | [] => s
  | first :: rest => first ++ String.join (rest.map stripAnsiSeg)

/-- The `log` function: apply the minimum-severity filter (a level below
`currentLogLevel` is dropped before any formatting), then render one
colourized console line from time, bracketed level, message, serialized
metadata and the optional grey file location. -/
def logRender (heap : List JsObj) (env : Env) (curLevel : Nat)
    (level message : String) (meta : JsVal) (fileLocation : Option String) : List String :=
  let levelKey := stripAnsiCodes level
  let filtered :=
    match logLevels levelKey with
    | some messageLevel => decide (messageLevel < curLevel)
    | none => false
  if filtered then []
  else
    let hhMMTime := "\x1b[34m" ++ strTake (strDrop env.now 11) 8 ++ "\x1b[0m"
    let metaStr := if truthy meta then jsonStringify heap meta else ""
    let (levelC, messageC, metaC) :=
      if level = "error" then ("\x1b[31m" ++ level ++ "\x1b[0m", message, "\x1b[35m" ++ metaStr ++ "\x1b[0m")
      else if level = "info" then ("\x1b[32m" ++ level ++ "\x1b[0m", message, "\x1b[35m" ++ metaStr ++ "\x1b[0m")
      else if level = "debug" then
        ("\x1b[90m" ++ level ++ "\x1b[0m", "\x1b[90m" ++ message ++ "\x1b[0m", "\x1b[90m" ++ metaStr ++ "\x1b[0m")
      else if level = "warn" then ("\x1b[33m" ++ level ++ "\x1b[0m", message, "\x1b[35m" ++ metaStr ++ "\x1b[0m")
      else (level, message, metaStr)
    let location :=
      match fileLocation with
      | some loc => if loc ≠ "" then " \x1b[90m" ++ loc ++ "\x1b[0m" else ""
      | none => ""
    [hhMMTime ++ " [" ++ levelC ++ "]: " ++ messageC ++ " " ++ metaC ++ location]

/-! ## Store lifecycle and the write path -/

/-- Connection settings (`config.mysql`).  Only presence and the database
name are observable in the model; the remaining fields are kept for shape. -/
structure MysqlConfig where
  host : String := ""
  port : Nat := 0
  user : String := ""
  password : String := ""
  database : Option String := none
deriving Repr, DecidableEq

/-- The configuration `LoggerConfig`: optional store settings and optional explicit level. -/
structure LoggerConfig where
  mysql : Option MysqlConfig := none
  logLevel : Option String := none
deriving Repr, DecidableEq

/-- Outcomes of the external operations performed by `initializeConnection`:
the two setup queries, the migration probe (returning how many matching
columns `SHOW COLUMNS ... LIKE 'stacktrace'` found) and the `ALTER TABLE`,
plus the identity of the pool that would be created. -/
structure InitCtx where
  createDbResult : Except String Unit := Except.ok ()
  createTableResult : Except String Unit := Except.ok ()
  showColumnsResult : Except String Nat := Except.ok 1
  alterResult : Except String Unit := Except.ok ()
  poolId : Nat := 0
deriving Repr

/-- Outcomes of the external operations performed by `storeInDB`: whether
the body of its `try` block throws while preparing the record, and the
settlement of the detached `INSERT` promise. -/
structure StoreCtx where
  prepThrows : Bool := false
  insertResult : Except String Unit := Except.ok ()
deriving Repr

/-- The initializer `initializeConnection`: the idempotent background initializer.  Returns
immediately when already initialized or when no store is configured;
otherwise creates the database, assigns the pool handle, creates the table,
runs the non-critical column migration (its failure is swallowed) and only
then sets `dbInitialized`.  Any setup failure is caught, logged to the
console and leaves `dbInitialized` unset. -/
def initializeConnection (cfg : LoggerConfig) (ictx : InitCtx) (st : LoggerState) :
    LoggerState × Trace :=
  if st.dbInitialized || cfg.mysql.isNone then (st, {})
  else
    match ictx.createDbResult with
    | Except.error e =>
        (st, { console := ["Failed to initialize logs database: " ++ e], netOps := 2 })
    | Except.ok _ =>
        let st₁ := { st with conn := some ictx.poolId }
        match ictx.createTableResult with
        | Except.error e =>
            (st₁, { console := ["Failed to initialize logs database: " ++ e], netOps := 5 })
        | Except.ok _ =>
            match ictx.showColumnsResult with
            | Except.error e =>
                ({ st₁ with dbInitialized := true },
                 { console := ["[log-lib] Migration failed (non-critical): " ++ e], netOps := 6 })
            | Except.ok ncols =>
                if ncols = 0 then
                  match ictx.alterResult with
                  | Except.error e =>
                      ({ st₁ with dbInitialized := true },
                       { console := ["[log-lib] Running migration: Adding stacktrace column...",
                                     "[log-lib] Migration failed (non-critical): " ++ e],
                         netOps := 7 })
                  | Except.ok _ =>
                      ({ st₁ with dbInitialized := true },
                       { console := ["[log-lib] Running migration: Adding stacktrace column...",
                                     "[log-lib] Migration complete: stacktrace column added"],
                         netOps := 7 })
                else ({ st₁ with dbInitialized := true }, { netOps := 6 })

/-- The write path `storeInDB`: a silent no-op unless the pool handle is set and
`dbInitialized` holds; otherwise prepare the record (message through
`safeToStringMessage`, metadata serialized and truncated to 2000 characters)
inside a `try` block and issue the `INSERT` as a detached operation whose
failure is caught and, in dev mode only, logged to the console.  The second
component is the outcome observable by the caller: always `ok`. -/
def storeInDB (heap : List JsObj) (env : Env) (st : LoggerState) (ctx : StoreCtx)
    (level : String) (message meta : JsVal) (stacktrace : Option String) :
    Trace × Except String Unit :=
  if st.conn.isNone || st.dbInitialized = false then ({}, Except.ok ())
  else if ctx.prepThrows then
    ({ console := ["Unexpected failure preparing log for DB"] }, Except.ok ())
  else
    let msg := safeToStringMessage heap message
    let metaObj := safeMeta meta
    let metaStr := strTake (jsonStringify heap metaObj) 2000
    let stackStr := stacktrace.getD ""
    let fallback :=
      match ctx.insertResult with
      | Except.ok _ => []
      | Except.error e =>
          if env.envId = "dev" then ["Failed to persist log to DB " ++ e] else []
    ({ console := fallback, inserts := [⟨level, msg, metaStr, stackStr⟩], netOps := 1 },
     Except.ok ())

/-! ## The façade -/

/-- The `file:line` hint from a parsed frame (`frame.file && frame.line ? ... :
undefined`, with JavaScript truthiness on both fields). -/
def frameLocation : Option StackFrame → Option String
  | some fr =>
      if fr.file ≠ "" && fr.line ≠ 0 then some (fr.file ++ ":" ++ toString fr.line) else none
  | none => none

/-- Resolve the minimum log level: explicit configuration first, then the
`LOG_LEVEL` environment variable, then a default depending on `ENV_ID`
(`debug` in dev, else `info`); an unknown name falls back to `info`. -/
def resolveLogLevel (cfg : LoggerConfig) (env : Env) : Nat :=
  let nonEmpty : Option String → Option String := fun o =>
    match o with
    | some s => if s = "" then none else some s
    | none => none
  let configured :=
    match nonEmpty cfg.logLevel with
    | some s => s
    | none =>
        match nonEmpty env.logLevelVar with
        | some s => s
        | none => if env.envId = "dev" then "debug" else "info"
  (logLevels configured).getD 1

/-- The module state at load time: no pool, not initialized, level `info`. -/
def initialState : LoggerState := {}

/-- The facade `createLogger`: set `currentLogLevel` from the resolved configuration
and, only when store settings are present, start the background
initialization (modelled at one of its completion points). -/
def createLogger (cfg : LoggerConfig) (env : Env) (ictx : InitCtx) (st : LoggerState) :
    LoggerState × Trace :=
  let st₁ := { st with currentLogLevel := resolveLogLevel cfg env }
  if cfg.mysql.isSome then initializeConnection cfg ictx st₁ else (st₁, {})

/-- The method `logger.info`: render to the console with a call-site file hint and
offer the record to the store. -/
def loggerInfo (heap : List JsObj) (env : Env) (st : LoggerState) (ctx : StoreCtx)
    (message meta : JsVal) : Trace × Except String Unit :=
  let metaObj := safeMeta meta
  let callStack := captureCallStack env
  let fullTsStack := extractFullTsStacktrace env.cwd (some callStack)
  let fileLocation := frameLocation (extractFirstProjectFrame env.cwd (some callStack))
  let consoleLines :=
    logRender heap env st.currentLogLevel "info" (safeToStringMessage heap message) metaObj
      fileLocation
  let db := storeInDB heap env st ctx "info" message metaObj (some fullTsStack)
  (Trace.seq { console := consoleLines } db.1, db.2)

/-- The method `logger.warn`: like `info` at level `warn`. -/
def loggerWarn (heap : List JsObj) (env : Env) (st : LoggerState) (ctx : StoreCtx)
    (message meta : JsVal) : Trace × Except String Unit :=
  let metaObj := safeMeta meta
  let callStack := captureCallStack env
  let fullTsStack := extractFullTsStacktrace env.cwd (some callStack)
  let fileLocation := frameLocation (extractFirstProjectFrame env.cwd (some callStack))
  let consoleLines :=
    logRender heap env st.currentLogLevel "warn" (safeToStringMessage heap message) metaObj
      fileLocation
  let db := storeInDB heap env st ctx "warn" message metaObj (some fullTsStack)
  (Trace.seq { console := consoleLines } db.1, db.2)

/-- The method `logger.debug`: console only; the store is never involved. -/
def loggerDebug (heap : List JsObj) (env : Env) (st : LoggerState)
    (message meta : JsVal) : Trace :=
  let callStack := captureCallStack env
  let fileLocation := frameLocation (extractFirstProjectFrame env.cwd (some callStack))
  { console :=
      logRender heap env st.currentLogLevel "debug" (safeToStringMessage heap message)
        (safeMeta meta) fileLocation }

/-- The `.stack` property of a value, when it holds a string. -/
def stackString (heap : List JsObj) (v : JsVal) : Option String :=
  match getStack heap v with
  | JsVal.str s => some s
  | _ => none

/-- The method `logger.error`: on an `Error` instance, walk the cause chain, print the
message (with file hint), the enhanced stack and the cause-chain summary,
and store the record with enriched metadata; on any other value, coerce it
to a readable string and follow the plain path. -/
def loggerError (heap : List JsObj) (env : Env) (fs : String → Option (List String))
    (st : LoggerState) (ctx : StoreCtx) (message meta : JsVal) :
    Trace × Except String Unit :=
  let metaObj := safeMeta meta
  if isErrorInstance heap message then
    let causeChain := buildCauseChain heap message
    let stackStr := stackString heap message
    let fullTsStack := extractFullTsStacktrace env.cwd stackStr
    let fileLocation := frameLocation (extractFirstProjectFrame env.cwd stackStr)
    let consoleMain :=
      logRender heap env st.currentLogLevel "error" (jsToStr heap (getMessage heap message))
        metaObj fileLocation
    let stackBlock :=
      if truthy (getStack heap message) then printStackEnhanced env fs heap message else {}
    let causeLine : List String :=
      if causeChain ≠ [] then
        ["\x1b[35mCause chain:\x1b[0m " ++ String.intercalate " -> " causeChain]
      else []
    let enrichedMeta :=
      JsVal.enriched (getStack heap message) (getName heap message) causeChain metaObj
    let db :=
      storeInDB heap env st ctx "error" (getMessage heap message) enrichedMeta (some fullTsStack)
    (Trace.seq { console := consoleMain }
      (Trace.seq stackBlock (Trace.seq { console := causeLine } db.1)), db.2)
  else
    let msgStr := safeToStringMessage heap message
    let callStack := captureCallStack env
    let fullTsStack := extractFullTsStacktrace env.cwd (some callStack)
    let fileLocation := frameLocation (extractFirstProjectFrame env.cwd (some callStack))
    let consoleMain := logRender heap env st.currentLogLevel "error" msgStr metaObj fileLocation
    let stackBlock := printStackEnhanced env fs heap message
    let db :=
      storeInDB heap env st ctx "error" (JsVal.str msgStr) metaObj (some fullTsStack)
    (Trace.seq { console := consoleMain } (Trace.seq stackBlock db.1), db.2)

/-- The method `logger.errorEnriched`: combine the caller's context string with the
error's message and follow the same two paths as `logger.error`. -/
def loggerErrorEnriched (heap : List JsObj) (env : Env)
    (fs : String → Option (List String)) (st : LoggerState) (ctx : StoreCtx)
    (message : String) (error meta : JsVal) : Trace × Except String Unit :=
  let metaObj := safeMeta meta
  if isErrorInstance heap error then
    let causeChain := buildCauseChain heap error
    let stackStr := stackString heap error
    let fullTsStack := extractFullTsStacktrace env.cwd stackStr
    let fileLocation := frameLocation (extractFirstProjectFrame env.cwd stackStr)
    let combined := message ++ ": " ++ jsToStr heap (getMessage heap error)
    let consoleMain :=
      logRender heap env st.currentLogLevel "error" combined metaObj fileLocation
    let stackBlock :=
      if truthy (getStack heap error) then printStackEnhanced env fs heap error else {}
    let causeLine : List String :=
      if causeChain ≠ [] then
        ["\x1b[35mCause chain:\x1b[0m " ++ String.intercalate " -> " causeChain]
      else []
    let enrichedMeta :=
      JsVal.enriched (getStack heap error) (getName heap error) causeChain metaObj
    let db :=
      storeInDB heap env st ctx "error" (JsVal.str combined) enrichedMeta (some fullTsStack)
    (Trace.seq { console := consoleMain }
      (Trace.seq stackBlock (Trace.seq { console := causeLine } db.1)), db.2)
  else
    let errStr := safeToStringMessage heap error
    let callStack := captureCallStack env
    let fullTsStack := extractFullTsStacktrace env.cwd (some callStack)
    let fileLocation := frameLocation (extractFirstProjectFrame env.cwd (some callStack))
    let combined := message ++ ": " ++ errStr
    let consoleMain :=
      logRender heap env st.currentLogLevel "error" combined metaObj fileLocation
    let stackBlock := printStackEnhanced env fs heap error
    let db :=
      storeInDB heap env st ctx "error" (JsVal.str combined) metaObj (some fullTsStack)
    (Trace.seq { console := consoleMain } (Trace.seq stackBlock db.1), db.2)

/-- The method `fastifyLogger.debug`: console only; the store is never involved. -/
def fastifyDebug (heap : List JsObj) (env : Env) (st : LoggerState) (msg : JsVal) : Trace :=
  let callStack := captureCallStack env
  let fileLocation := frameLocation (extractFirstProjectFrame env.cwd (some callStack))
  { console :=
      logRender heap env st.currentLogLevel "debug" (jsToStr heap msg) JsVal.undef fileLocation }

/-! ## Specification-side notions for the cause-chain claims -/

/-- The nodes reachable from a value by following `cause` references
(the value itself, when it is an object, counts as reachable). -/
inductive ReachesCause (heap : List JsObj) : JsVal → Nat → Prop where
  | here : ∀ id node, heap[id]? = some node → ReachesCause heap (JsVal.obj id) id
  | step : ∀ id node tgt, heap[id]? = some node → ReachesCause heap node.cause tgt →
      ReachesCause heap (JsVal.obj id) tgt

/-- Is a value one of the ordinary runtime values (not one of the two
modelling literals `eobj` / `enriched`, which only arise as metadata inside
the logger, never as links of an error's cause graph)? -/
def plainVal : JsVal → Bool
  | JsVal.eobj => false
  | JsVal.enriched _ _ _ _ => false
  | _ => true

/-- A heap whose cause references are ordinary runtime values. -/
def CauseTidy (heap : List JsObj) : Bool :=
  heap.all (fun node => plainVal node.cause)

/-- How many heap indices are not yet in the visited list — the quantity
the `visited` cycle guard of `buildCauseChain` makes strictly decrease. -/
def unvis (heap : List JsObj) (visited : List Nat) : Nat :=
  ((List.range heap.length).filter (fun i => i ∉ visited)).length

/-- A two-node cyclic cause graph: `0 → 1 → 0`. -/
def w6heap : List JsObj :=
  [{ name := JsVal.str "ErrA", message := JsVal.str "ma", cause := JsVal.obj 1,
     isError := true },
   { name := JsVal.str "ErrB", message := JsVal.str "mb", cause := JsVal.obj 0,
     isError := true }]

/-- A three-node chain `0 → 1 → 2` with structured nodes. -/
def w7heap : List JsObj :=
  [{ name := JsVal.str "ErrA", message := JsVal.str "ma", cause := JsVal.obj 1,
     isError := true },
   { name := JsVal.str "ErrB", message := JsVal.str "mb", cause := JsVal.obj 2,
     isError := true },
   { name := JsVal.str "ErrC", message := JsVal.str "mc", isError := true }]

/-- The store-readiness invariant: the readiness flag is only ever true with
an assigned pool handle. -/
def StoreInv (st : LoggerState) : Prop := st.dbInitialized = true → st.conn.isSome = true

/-- A 2001-character message. -/
def longMsg : String := String.mk (List.replicate 2001 'a')

/-- An error object whose stack holds a resolvable application frame. -/
def w9heap : List JsObj :=
  [{ name := JsVal.str "E", message := JsVal.str "m",
     stack := JsVal.str "Error: m\n    at foo (src/a.ts:3:5)", isError := true }]

/-- A file system on which the frame of `w9heap` resolves. -/
def w9fs : String → Option (List String) := fun p =>
  if p = "/src/a.ts" then some ["l1", "l2", "l3", "l4", "l5"] else none

/-! ## Lemmas about the cause-chain walker -/

theorem causeChainGo_zero (heap : List JsObj) (root : JsVal) (visited : List Nat)
    (current : JsVal) : causeChainGo heap root 0 visited current = [] := rfl

theorem causeChainGo_undef (heap : List JsObj) (root : JsVal) (fuel : Nat)
    (visited : List Nat) : causeChainGo heap root fuel visited JsVal.undef = [] := by
  cases fuel <;> rfl

theorem causeChainGo_not_object (heap : List JsObj) (root current : JsVal) (fuel : Nat)
    (visited : List Nat) (h : isObjectType current = false ∨ current = JsVal.nullv) :
    causeChainGo heap root fuel visited current = [] := by
  cases fuel <;> cases current <;> simp_all [causeChainGo, isObjectType]

theorem causeChainGo_visited (heap : List JsObj) (root : JsVal) (fuel : Nat)
    (visited : List Nat) (id : Nat) (hmem : id ∈ visited) :
    causeChainGo heap root fuel visited (JsVal.obj id) = [] := by
  cases fuel with
  | zero => rfl
  | succ f =>
    simp only [causeChainGo]
    cases h : heap[id]? with
    | none => rfl
    | some node => simp [hmem]

/-- One iteration of the cause-chain loop on a fresh heap object. -/
theorem causeChainGo_obj_step (heap : List JsObj) (root : JsVal) (fuel : Nat)
    (visited : List Nat) (id : Nat) (node : JsObj) (hf : 1 ≤ fuel)
    (hnode : heap[id]? = some node) (hmem : id ∉ visited) :
    causeChainGo heap root fuel visited (JsVal.obj id) =
      (if JsVal.obj id = root then [] else [nodeTitle heap id node]) ++
        causeChainGo heap root (fuel - 1) (id :: visited) node.cause := by
  obtain ⟨f, rfl⟩ : ∃ f, fuel = f + 1 := ⟨fuel - 1, by omega⟩
  simp only [causeChainGo, hnode, Nat.add_sub_cancel]
  rw [if_neg hmem]
  split <;> simp

theorem length_filter_ne_of_nodup {L : List Nat} {id : Nat} (h : L.Nodup) (hm : id ∈ L) :
    (L.filter (fun i => i ≠ id)).length + 1 = L.length := by
  induction L with
  | nil => cases hm
  | cons a L ih =>
    have hnd := List.nodup_cons.mp h
    by_cases hai : a = id
    · subst hai
      have hfix : L.filter (fun i => i ≠ a) = L :=
        List.filter_eq_self.mpr (fun b hb => by
          simp only [decide_eq_true_eq]
          rintro rfl
          exact hnd.1 hb)
      simp only [List.filter_cons, hfix, List.length_cons]
      simp only [decide_eq_true_eq]
      rw [if_neg (by simp)]
    · have hm' : id ∈ L := by
        rcases List.mem_cons.mp hm with h1 | h1
        · exact absurd h1.symm hai
        · exact h1
      simp only [List.filter_cons, hai, decide_eq_true_eq, if_pos, List.length_cons]
      rw [← ih hnd.2 hm']
      simp [hai]

/-- Stepping into an unvisited heap index shrinks the unvisited count by
exactly one. -/
theorem unvis_cons (heap : List JsObj) (visited : List Nat) (id : Nat)
    (hid : id < heap.length) (hmem : id ∉ visited) :
    unvis heap (id :: visited) + 1 = unvis heap visited := by
  unfold unvis
  have hsplit :
      (List.range heap.length).filter (fun i => i ∉ id :: visited) =
        ((List.range heap.length).filter (fun i => i ∉ visited)).filter (fun i => i ≠ id) := by
    rw [List.filter_filter]
    apply List.filter_congr
    intro x _
    by_cases hx : x = id <;> by_cases hv : x ∈ visited <;> simp [hx, hv]
  rw [hsplit]
  apply length_filter_ne_of_nodup
  · exact (List.nodup_range heap.length).filter _
  · simp [List.mem_filter, List.mem_range, hid, hmem]

theorem unvis_nil (heap : List JsObj) : unvis heap [] = heap.length := by
  simp [unvis]

/-- The iteration budget is irrelevant as soon as it exceeds the number of
unvisited heap indices: the cycle guard, not the budget, stops the loop.
This is the faithfulness of the budgeted embedding to the unbounded
`while` loop of the source. -/
theorem causeChainGo_fuel_irrelevant (heap : List JsObj) (root : JsVal) :
    ∀ fuel₁ fuel₂ visited current, unvis heap visited < fuel₁ → unvis heap visited < fuel₂ →
      causeChainGo heap root fuel₁ visited current =
        causeChainGo heap root fuel₂ visited current := by
  intro fuel₁
  induction fuel₁ using Nat.strong_induction_on with
  | _ fuel₁ ih =>
    intro fuel₂ visited current h₁ h₂
    obtain ⟨a, rfl⟩ : ∃ a, fuel₁ = a + 1 := ⟨fuel₁ - 1, by omega⟩
    obtain ⟨b, rfl⟩ : ∃ b, fuel₂ = b + 1 := ⟨fuel₂ - 1, by omega⟩
    cases current with
    | obj id =>
        cases hnode : heap[id]? with
        | none => simp [causeChainGo, hnode]
        | some node =>
          by_cases hmem : id ∈ visited
          · rw [causeChainGo_visited _ _ _ _ _ hmem, causeChainGo_visited _ _ _ _ _ hmem]
          · have hid : id < heap.length := (List.getElem?_eq_some.mp hnode).1
            have hd := unvis_cons heap visited id hid hmem
            rw [causeChainGo_obj_step _ _ _ _ _ _ (by omega) hnode hmem,
                causeChainGo_obj_step _ _ _ _ _ _ (by omega) hnode hmem]
            have := ih a (by omega) b (id :: visited) node.cause (by omega) (by omega)
            simp only [Nat.add_sub_cancel]
            rw [this]
    | str s => rfl
    | num n => rfl
    | boolv bb => rfl
    | nullv => rfl
    | undef => rfl
    | eobj => rfl
    | enriched s n cc base => rfl

theorem reaches_lt (heap : List JsObj) (v : JsVal) (i : Nat)
    (h : ReachesCause heap v i) : i < heap.length := by
  induction h with
  | here id node hnode => exact (List.getElem?_eq_some.mp hnode).1
  | step id node tgt hnode _ ih => exact ih

theorem reaches_finite (heap : List JsObj) (v : JsVal) :
    {i | ReachesCause heap v i}.Finite :=
  (Set.finite_Iio heap.length).subset (fun i hi => reaches_lt heap v i hi)

theorem tidy_cause_plain (heap : List JsObj) (htidy : CauseTidy heap = true)
    (id : Nat) (node : JsObj) (hnode : heap[id]? = some node) :
    plainVal node.cause = true := by
  have hmem : node ∈ heap := List.getElem?_mem hnode
  exact List.all_eq_true.mp htidy node hmem

/-- The chain emitted by the loop never exceeds the number of distinct
reachable-and-unvisited nodes. -/
theorem causeChainGo_length_le (heap : List JsObj) (root : JsVal)
    (htidy : CauseTidy heap = true) :
    ∀ fuel visited current, plainVal current = true ∨ current = root →
      (causeChainGo heap root fuel visited current).length ≤
        Set.ncard {i | ReachesCause heap current i ∧ i ∉ visited} := by
  intro fuel
  induction fuel with
  | zero => intro visited current _; simp [causeChainGo_zero]
  | succ f ih =>
    intro visited current hcur
    cases current with
    | obj id =>
      cases hnode : heap[id]? with
      | none => simp [causeChainGo, hnode]
      | some node =>
        by_cases hmem : id ∈ visited
        · rw [causeChainGo_visited _ _ _ _ _ hmem]; simp
        · have hid : id < heap.length := (List.getElem?_eq_some.mp hnode).1
          rw [causeChainGo_obj_step _ _ _ _ _ _ (by omega) hnode hmem]
          have hplain := tidy_cause_plain heap htidy id node hnode
          have hrec := ih (id :: visited) node.cause (Or.inl hplain)
          set S' : Set Nat :=
            {i | ReachesCause heap node.cause i ∧ i ∉ id :: visited} with hS'
          set S : Set Nat :=
            {i | ReachesCause heap (JsVal.obj id) i ∧ i ∉ visited} with hS
          have hfinS : S.Finite :=
            ((reaches_finite heap (JsVal.obj id)).subset (fun i hi => hi.1)).subset
              (fun i hi => hi)
          have hsub : insert id S' ⊆ S := by
            rintro i (rfl | ⟨hr, hnv⟩)
            · exact ⟨ReachesCause.here i node hnode, hmem⟩
            · refine ⟨ReachesCause.step id node i hnode hr, ?_⟩
              intro hv
              exact hnv (List.mem_cons_of_mem _ hv)
          have hidS' : id ∉ S' := by
            rintro ⟨-, hnv⟩
            exact hnv (List.mem_cons_self id visited)
          have hfinS' : S'.Finite := hfinS.subset (fun i hi => hsub (Set.mem_insert_of_mem _ hi))
          have hcard : S'.ncard + 1 ≤ S.ncard := by
            rw [← Set.ncard_insert_of_not_mem hidS' hfinS']
            exact Set.ncard_le_ncard hsub hfinS
          simp only [Nat.add_sub_cancel]
          by_cases hroot : JsVal.obj id = root
          · rw [if_pos hroot]
            simp only [List.nil_append]
            exact le_trans hrec (by omega)
          · rw [if_neg hroot]
            simp only [List.length_append, List.length_cons, List.length_nil]
            omega
    | str s => simp [causeChainGo]
    | num n => simp [causeChainGo]
    | boolv b => simp [causeChainGo]
    | nullv => simp [causeChainGo]
    | undef => simp [causeChainGo]
    | eobj =>
      have hroot : JsVal.eobj = root := by
        rcases hcur with h | h
        · cases h
        · exact h
      simp [causeChainGo, hroot]
    | enriched s n cc base =>
      have hroot : JsVal.enriched s n cc base = root := by
        rcases hcur with h | h
        · cases h
        · exact h
      simp [causeChainGo, ← hroot]

/-- C6.  For every error value, including one whose cause references form
a cycle, cause-chain walking terminates — the iteration budget of the
embedding is irrelevant beyond `heap.length + 1`, the cycle guard alone
stops the loop — and returns a finite sequence whose length is no greater
than the number of distinct nodes reachable through the cause references. -/
theorem causeChain_terminates_and_bounded (heap : List JsObj) (err : JsVal)
    (htidy : CauseTidy heap = true) :
    (∀ extra, causeChainGo heap err (heap.length + 1 + extra) [] err
        = buildCauseChain heap err)
    ∧ (buildCauseChain heap err).length ≤ Set.ncard {i | ReachesCause heap err i} := by
  constructor
  · intro extra
    unfold buildCauseChain
    apply causeChainGo_fuel_irrelevant <;> rw [unvis_nil] <;> omega
  · have h := causeChainGo_length_le heap err htidy (heap.length + 1) [] err (Or.inr rfl)
    have hset : {i | ReachesCause heap err i ∧ i ∉ ([] : List Nat)}
        = {i | ReachesCause heap err i} := by
      ext i; simp
    rw [hset] at h
    exact h

theorem causeChain_terminates_and_bounded_witness :
    CauseTidy w6heap = true ∧
    ((∀ extra, causeChainGo w6heap (JsVal.obj 0) (w6heap.length + 1 + extra) [] (JsVal.obj 0)
        = buildCauseChain w6heap (JsVal.obj 0))
      ∧ (buildCauseChain w6heap (JsVal.obj 0)).length
          ≤ Set.ncard {i | ReachesCause w6heap (JsVal.obj 0) i}) :=
  ⟨by decide, causeChain_terminates_and_bounded w6heap (JsVal.obj 0) (by decide)⟩

/-- C7.  Cause-chain walking starts at the error's cause (the error
itself contributes no title), gives each structured node the title
`"name: message"`, preserves chain order — `A (cause B (cause C))` yields
the titles of `B` then `C` — yields the empty sequence when the error has no
cause or is not an object, and falls back to the best-effort string
conversion for a node without a truthy name. -/
theorem causeChain_order_and_content
    (heap : List JsObj) (a b c : Nat) (A B C : JsObj) (nb mb nc mc : String)
    (ha : heap[a]? = some A) (hb : heap[b]? = some B) (hc : heap[c]? = some C)
    (hab : a ≠ b) (hbc : b ≠ c) (hac : a ≠ c)
    (hAc : A.cause = JsVal.obj b) (hBc : B.cause = JsVal.obj c) (hCc : C.cause = JsVal.undef)
    (hBn : B.name = JsVal.str nb) (hnb : nb ≠ "") (hBm : B.message = JsVal.str mb)
    (hCn : C.name = JsVal.str nc) (hnc : nc ≠ "") (hCm : C.message = JsVal.str mc) :
    buildCauseChain heap (JsVal.obj a) = [nb ++ ": " ++ mb, nc ++ ": " ++ mc]
    ∧ (∀ (heap' : List JsObj) (e : Nat) (E : JsObj), heap'[e]? = some E →
        E.cause = JsVal.undef → buildCauseChain heap' (JsVal.obj e) = [])
    ∧ (∀ (heap' : List JsObj) (v : JsVal),
        isObjectType v = false ∨ v = JsVal.nullv → buildCauseChain heap' v = [])
    ∧ (∀ (heap' : List JsObj) (e d : Nat) (E D : JsObj), heap'[e]? = some E →
        heap'[d]? = some D → e ≠ d → E.cause = JsVal.obj d → truthy D.name = false →
        D.cause = JsVal.undef →
        buildCauseChain heap' (JsVal.obj e) = [safeToStringMessage heap' (JsVal.obj d)]) := by
  have hal : a < heap.length := (List.getElem?_eq_some.mp ha).1
  have hbl : b < heap.length := (List.getElem?_eq_some.mp hb).1
  have hcl : c < heap.length := (List.getElem?_eq_some.mp hc).1
  have hlen : 3 ≤ heap.length := by omega
  refine ⟨?_, ?_, ?_, ?_⟩
  · unfold buildCauseChain
    rw [causeChainGo_obj_step heap (JsVal.obj a) (heap.length + 1) [] a A (by omega) ha
        (by simp)]
    rw [if_pos rfl, List.nil_append, Nat.add_sub_cancel, hAc]
    rw [causeChainGo_obj_step heap (JsVal.obj a) heap.length [a] b B (by omega) hb
        (by simp [Ne.symm hab])]
    rw [if_neg (by simp [Ne.symm hab]), hBc]
    rw [causeChainGo_obj_step heap (JsVal.obj a) (heap.length - 1) [b, a] c C (by omega) hc
        (by simp [Ne.symm hbc, Ne.symm hac])]
    rw [if_neg (by simp [Ne.symm hac]), hCc, causeChainGo_undef]
    have hbt : nodeTitle heap b B = nb ++ ": " ++ mb := by
      unfold nodeTitle
      rw [hBn, hBm]
      simp [truthy, jsToStr, hnb]
    have hct : nodeTitle heap c C = nc ++ ": " ++ mc := by
      unfold nodeTitle
      rw [hCn, hCm]
      simp [truthy, jsToStr, hnc]
    simp [hbt, hct]
  · intro heap' e E he hE
    unfold buildCauseChain
    rw [causeChainGo_obj_step heap' (JsVal.obj e) (heap'.length + 1) [] e E (by omega) he
        (by simp)]
    rw [if_pos rfl, hE, causeChainGo_undef]
    simp
  · intro heap' v hv
    unfold buildCauseChain
    exact causeChainGo_not_object heap' v v _ [] hv
  · intro heap' e d E D he hd hed hE hD hDc
    have hel : e < heap'.length := (List.getElem?_eq_some.mp he).1
    have hdl : d < heap'.length := (List.getElem?_eq_some.mp hd).1
    unfold buildCauseChain
    rw [causeChainGo_obj_step heap' (JsVal.obj e) (heap'.length + 1) [] e E (by omega) he
        (by simp)]
    rw [if_pos rfl, List.nil_append, Nat.add_sub_cancel, hE]
    rw [causeChainGo_obj_step heap' (JsVal.obj e) heap'.length [e] d D (by omega) hd
        (by simp [Ne.symm hed])]
    rw [if_neg (by simp [Ne.symm hed]), hDc, causeChainGo_undef]
    unfold nodeTitle
    rw [hD]
    simp

theorem causeChain_order_and_content_witness :
    buildCauseChain w7heap (JsVal.obj 0) = ["ErrB: mb", "ErrC: mc"]
    ∧ (∀ (heap' : List JsObj) (e : Nat) (E : JsObj), heap'[e]? = some E →
        E.cause = JsVal.undef → buildCauseChain heap' (JsVal.obj e) = [])
    ∧ (∀ (heap' : List JsObj) (v : JsVal),
        isObjectType v = false ∨ v = JsVal.nullv → buildCauseChain heap' v = [])
    ∧ (∀ (heap' : List JsObj) (e d : Nat) (E D : JsObj), heap'[e]? = some E →
        heap'[d]? = some D → e ≠ d → E.cause = JsVal.obj d → truthy D.name = false →
        D.cause = JsVal.undef →
        buildCauseChain heap' (JsVal.obj e) = [safeToStringMessage heap' (JsVal.obj d)]) :=
  causeChain_order_and_content w7heap 0 1 2
    { name := JsVal.str "ErrA", message := JsVal.str "ma", cause := JsVal.obj 1,
      isError := true }
    { name := JsVal.str "ErrB", message := JsVal.str "mb", cause := JsVal.obj 2,
      isError := true }
    { name := JsVal.str "ErrC", message := JsVal.str "mc", isError := true }
    "ErrB" "mb" "ErrC" "mc" rfl rfl rfl (by decide) (by decide) (by decide)
    rfl rfl rfl rfl (by decide) rfl rfl (by decide) rfl

/-! ## Lemmas about the store write path -/

/-- The write path `storeInDB` returns normally on every path. -/
theorem storeInDB_snd (heap : List JsObj) (env : Env) (st : LoggerState) (ctx : StoreCtx)
    (level : String) (message meta : JsVal) (stacktrace : Option String) :
    (storeInDB heap env st ctx level message meta stacktrace).2 = Except.ok () := by
  unfold storeInDB
  split
  · rfl
  · split <;> rfl

/-- The single insert issued by a ready store, in symbolic form. -/
theorem storeInDB_ready_inserts (heap : List JsObj) (env : Env) (st : LoggerState)
    (ctx : StoreCtx) (level : String) (message meta : JsVal) (stacktrace : Option String)
    (x : Nat) (hx : st.conn = some x) (hinit : st.dbInitialized = true)
    (hprep : ctx.prepThrows = false) :
    (storeInDB heap env st ctx level message meta stacktrace).1.inserts
      = [⟨level, safeToStringMessage heap message,
          strTake (jsonStringify heap (safeMeta meta)) 2000, stacktrace.getD ""⟩] := by
  unfold storeInDB
  rw [if_neg (by simp [hx, hinit]), if_neg (by simp [hprep])]

/-- The write path `storeInDB` never touches the file system. -/
theorem storeInDB_fileAccesses (heap : List JsObj) (env : Env) (st : LoggerState)
    (ctx : StoreCtx) (level : String) (message meta : JsVal) (stacktrace : Option String) :
    (storeInDB heap env st ctx level message meta stacktrace).1.fileAccesses = [] := by
  unfold storeInDB
  split
  · rfl
  · split <;> rfl

/-- C3.  A store write issued while the pool handle is null or the
readiness flag is unset is a silent no-op — no insert, no console line, no
network operation; once both are set (and the record preparation does not
throw), the write issues exactly one insert. -/
theorem storeInDB_readiness_gate (heap : List JsObj) (env : Env) (st : LoggerState)
    (ctx : StoreCtx) (level : String) (message meta : JsVal) (stacktrace : Option String) :
    (st.conn = none ∨ st.dbInitialized = false →
      (storeInDB heap env st ctx level message meta stacktrace).1 = {}) ∧
    (st.conn.isSome = true → st.dbInitialized = true → ctx.prepThrows = false →
      (storeInDB heap env st ctx level message meta stacktrace).1.inserts.length = 1) := by
  constructor
  · intro h
    rcases h with h | h <;> simp [storeInDB, h]
  · intro hconn hinit hprep
    obtain ⟨x, hx⟩ := Option.isSome_iff_exists.mp hconn
    simp [storeInDB, hx, hinit, hprep]

theorem storeInDB_readiness_gate_witness :
    ((storeInDB [] {} ⟨none, false, 1⟩ {} "info" (JsVal.str "x") JsVal.undef none).1 = {}) ∧
    ((storeInDB [] {} ⟨some 0, true, 1⟩ {} "info" (JsVal.str "x")
        JsVal.undef none).1.inserts.length = 1) :=
  ⟨(storeInDB_readiness_gate [] {} ⟨none, false, 1⟩ {} "info" (JsVal.str "x")
      JsVal.undef none).1 (Or.inl rfl),
   (storeInDB_readiness_gate [] {} ⟨some 0, true, 1⟩ {} "info" (JsVal.str "x")
      JsVal.undef none).2 rfl rfl rfl⟩

/-- C5.  A `debug` call — native or framework-compatible — never produces
a store write, whatever the store's readiness state. -/
theorem debug_never_stores (heap : List JsObj) (env : Env) (st : LoggerState)
    (message meta msg : JsVal) :
    (loggerDebug heap env st message meta).inserts = []
    ∧ (fastifyDebug heap env st msg).inserts = [] :=
  ⟨rfl, rfl⟩

/-- C4.  No failure of the detached store write is observable by the
caller: `storeInDB` and every log method built on it return normally for
every outcome of the serialization step and of the detached insert, and the
insert's failure produces at most one console line (and only in dev mode). -/
theorem storeFailure_not_observable (heap : List JsObj) (env : Env)
    (fs : String → Option (List String)) (st : LoggerState) (ctx : StoreCtx)
    (level msgStr : String) (message error meta : JsVal) (stacktrace : Option String) :
    (storeInDB heap env st ctx level message meta stacktrace).2 = Except.ok () ∧
    (loggerInfo heap env st ctx message meta).2 = Except.ok () ∧
    (loggerWarn heap env st ctx message meta).2 = Except.ok () ∧
    (loggerError heap env fs st ctx message meta).2 = Except.ok () ∧
    (loggerErrorEnriched heap env fs st ctx msgStr error meta).2 = Except.ok () ∧
    (∀ e, ctx.insertResult = Except.error e → st.conn.isSome = true →
      st.dbInitialized = true → ctx.prepThrows = false →
      (storeInDB heap env st ctx level message meta stacktrace).1.console =
        if env.envId = "dev" then ["Failed to persist log to DB " ++ e] else []) := by
  refine ⟨storeInDB_snd _ _ _ _ _ _ _ _, ?_, ?_, ?_, ?_, ?_⟩
  · exact storeInDB_snd _ _ _ _ _ _ _ _
  · exact storeInDB_snd _ _ _ _ _ _ _ _
  · unfold loggerError
    split <;> exact storeInDB_snd _ _ _ _ _ _ _ _
  · unfold loggerErrorEnriched
    split <;> exact storeInDB_snd _ _ _ _ _ _ _ _
  · intro e he hconn hinit hprep
    obtain ⟨x, hx⟩ := Option.isSome_iff_exists.mp hconn
    simp [storeInDB, hx, hinit, hprep, he]

theorem storeFailure_not_observable_witness :
    (storeInDB [] ⟨"dev", none, "", "t", none⟩ ⟨some 0, true, 1⟩
        ⟨false, Except.error "boom"⟩ "info" (JsVal.str "m") JsVal.undef none).2
      = Except.ok () ∧
    (storeInDB [] ⟨"dev", none, "", "t", none⟩ ⟨some 0, true, 1⟩
        ⟨false, Except.error "boom"⟩ "info" (JsVal.str "m") JsVal.undef none).1.console
      = ["Failed to persist log to DB boom"] := by
  have h := storeFailure_not_observable [] ⟨"dev", none, "", "t", none⟩ (fun _ => none)
    ⟨some 0, true, 1⟩ ⟨false, Except.error "boom"⟩ "info" "ctx" (JsVal.str "m")
    JsVal.undef JsVal.undef none
  refine ⟨h.1, ?_⟩
  have h6 := h.2.2.2.2.2 "boom" rfl rfl rfl rfl
  simpa using h6

/-- C10.  The readiness flag implies an assigned pool handle: the
invariant holds initially, is preserved by every run of the initializer
(whatever the outcomes of its external operations), the initializer never
resets an initialized state nor clears an assigned handle, and the write
guard issues an insert only when the handle is non-null. -/
theorem readiness_implies_conn (cfg : LoggerConfig) (ictx : InitCtx) (st : LoggerState)
    (heap : List JsObj) (env : Env) (ctx : StoreCtx) (level : String)
    (message meta : JsVal) (stacktrace : Option String) :
    StoreInv initialState ∧
    (StoreInv st → StoreInv (initializeConnection cfg ictx st).1) ∧
    (st.dbInitialized = true → (initializeConnection cfg ictx st).1 = st) ∧
    (st.conn.isSome = true → ((initializeConnection cfg ictx st).1.conn).isSome = true) ∧
    ((storeInDB heap env st ctx level message meta stacktrace).1.inserts ≠ [] →
      st.conn.isSome = true) := by
  refine ⟨?_, ?_, ?_, ?_, ?_⟩
  · intro h
    simp [initialState] at h
  · intro hinv
    unfold initializeConnection
    split
    · exact hinv
    · rcases ictx.createDbResult with e | u
      · exact hinv
      · rcases ictx.createTableResult with e | u
        · intro _; rfl
        · rcases ictx.showColumnsResult with e | ncols
          · intro _; rfl
          · dsimp only
            split
            · rcases ictx.alterResult with e | u <;> intro _ <;> rfl
            · intro _; rfl
  · intro hinit
    unfold initializeConnection
    rw [if_pos]
    simp [hinit]
  · intro hconn
    unfold initializeConnection
    split
    · exact hconn
    · rcases ictx.createDbResult with e | u
      · exact hconn
      · rcases ictx.createTableResult with e | u
        · rfl
        · rcases ictx.showColumnsResult with e | ncols
          · rfl
          · dsimp only
            split
            · rcases ictx.alterResult with e | u <;> rfl
            · rfl
  · intro hins
    cases h : st.conn with
    | some x => rfl
    | none =>
      exfalso
      unfold storeInDB at hins
      rw [if_pos (by simp [h])] at hins
      simp at hins

theorem readiness_implies_conn_witness :
    StoreInv initialState ∧
    (StoreInv ⟨none, false, 1⟩ →
      StoreInv (initializeConnection ⟨some {}, none⟩ {} ⟨none, false, 1⟩).1) ∧
    (((⟨none, false, 1⟩ : LoggerState).dbInitialized = true) →
      (initializeConnection ⟨some {}, none⟩ {} ⟨none, false, 1⟩).1 = ⟨none, false, 1⟩) ∧
    (((⟨none, false, 1⟩ : LoggerState).conn.isSome = true) →
      ((initializeConnection ⟨some {}, none⟩ {} ⟨none, false, 1⟩).1.conn).isSome = true) ∧
    ((storeInDB [] {} ⟨none, false, 1⟩ {} "info" (JsVal.str "x")
        JsVal.undef none).1.inserts ≠ [] →
      ((⟨none, false, 1⟩ : LoggerState).conn).isSome = true) :=
  readiness_implies_conn ⟨some {}, none⟩ {} ⟨none, false, 1⟩ [] {} {} "info"
    (JsVal.str "x") JsVal.undef none

/-- The printer `printStackEnhanced` performs no file access outside dev mode. -/
theorem printStackEnhanced_no_io (env : Env) (fs : String → Option (List String))
    (heap : List JsObj) (v : JsVal) (hdev : env.envId ≠ "dev") :
    (printStackEnhanced env fs heap v).fileAccesses = [] := by
  unfold printStackEnhanced
  split
  · rfl
  · split
    · simp [hdev]
    · rfl

/-- C9.  With the diagnostic verbosity flag off (`ENV_ID` is not `dev`),
an `error(err)` call performs no file I/O at all — the code-frame builder is
never consulted — whatever the error's stack contains. -/
theorem verboseOff_no_code_frame_io (heap : List JsObj) (env : Env)
    (fs : String → Option (List String)) (st : LoggerState) (ctx : StoreCtx)
    (message meta : JsVal) (hdev : env.envId ≠ "dev") :
    (loggerError heap env fs st ctx message meta).1.fileAccesses = []
    ∧ (printStackEnhanced env fs heap message).fileAccesses = [] := by
  refine ⟨?_, printStackEnhanced_no_io env fs heap message hdev⟩
  unfold loggerError
  split
  · dsimp only [Trace.seq]
    rw [storeInDB_fileAccesses]
    split
    · rw [printStackEnhanced_no_io env fs heap message hdev]
      rfl
    · rfl
  · dsimp only [Trace.seq]
    rw [storeInDB_fileAccesses, printStackEnhanced_no_io env fs heap message hdev]
    rfl

theorem verboseOff_no_code_frame_io_witness :
    (("prod" : String) ≠ "dev") ∧
    ((loggerError w9heap ⟨"prod", none, "", "t", none⟩ w9fs ⟨some 0, true, 1⟩ {}
        (JsVal.obj 0) JsVal.undef).1.fileAccesses = []
      ∧ (printStackEnhanced ⟨"prod", none, "", "t", none⟩ w9fs w9heap
          (JsVal.obj 0)).fileAccesses = []) :=
  ⟨by decide,
   verboseOff_no_code_frame_io w9heap ⟨"prod", none, "", "t", none⟩ w9fs
     ⟨some 0, true, 1⟩ {} (JsVal.obj 0) JsVal.undef (by decide)⟩

/-! ## Level filtering and the console path -/

theorem stripAnsi_plain_info : stripAnsiCodes "info" = "info" := by decide

/-- C1, amended.  A log call whose level is strictly below the
configured minimum produces no console output, but the severity filter does
not gate the store write: with the store ready (and the detached insert
succeeding), the insert is still issued. -/
theorem belowLevel_console_silent_store_attempted (heap : List JsObj) (env : Env)
    (st : LoggerState) (ctx : StoreCtx) (message meta : JsVal)
    (hlvl : 1 < st.currentLogLevel) (hconn : st.conn.isSome = true)
    (hinit : st.dbInitialized = true) (hprep : ctx.prepThrows = false)
    (hok : ctx.insertResult = Except.ok ()) :
    (loggerInfo heap env st ctx message meta).1.console = []
    ∧ (loggerInfo heap env st ctx message meta).1.inserts.length = 1 := by
  obtain ⟨x, hx⟩ := Option.isSome_iff_exists.mp hconn
  constructor
  · simp [loggerInfo, Trace.seq, logRender, stripAnsi_plain_info, logLevels, hlvl,
      storeInDB, hx, hinit, hprep, hok]
  · simp [loggerInfo, Trace.seq, storeInDB, hx, hinit, hprep]

/-- C1, counterexample.  With the minimum level set to `warn` and the
store successfully initialized, an `info` call renders nothing to the
console yet still issues a store insert: the severity filter does not
suppress the database write. -/
theorem belowLevel_store_write_not_suppressed :
    ((loggerInfo [] {} (createLogger ⟨some {}, some "warn"⟩ {} {} initialState).1 {}
        (JsVal.str "x") JsVal.undef).1.console = [])
    ∧ ((loggerInfo [] {} (createLogger ⟨some {}, some "warn"⟩ {} {} initialState).1 {}
        (JsVal.str "x") JsVal.undef).1.inserts ≠ []) := by
  constructor <;> decide

theorem belowLevel_console_silent_store_attempted_witness :
    (1 < (3 : Nat)) ∧
    ((loggerInfo [] {} ⟨some 0, true, 3⟩ {} (JsVal.str "x") JsVal.undef).1.console = []
      ∧ (loggerInfo [] {} ⟨some 0, true, 3⟩ {}
          (JsVal.str "x") JsVal.undef).1.inserts.length = 1) :=
  ⟨by decide,
   belowLevel_console_silent_store_attempted [] {} ⟨some 0, true, 3⟩ {}
     (JsVal.str "x") JsVal.undef (by decide) rfl rfl rfl rfl⟩

/-- C2, the code evaluated at the failing input.  A plain-string message of
2001 characters is passed through `safeToStringMessage` unchanged and
persisted at full length — the 2000-character truncation is applied to the
serialized metadata but not to string messages — while the call still
raises no error. -/
theorem oversized_message_persisted_untruncated :
    longMsg.length = 2001
    ∧ safeToStringMessage [] (JsVal.str longMsg) = longMsg
    ∧ (storeInDB [] {} ⟨some 0, true, 1⟩ {} "info" (JsVal.str longMsg)
        JsVal.undef none).1.inserts
      = [⟨"info", longMsg, "\x7b\x7d", ""⟩]
    ∧ (∀ (heap : List JsObj) (meta : JsVal),
        (strTake (jsonStringify heap (safeMeta meta)) 2000).length ≤ 2000)
    ∧ (storeInDB [] {} ⟨some 0, true, 1⟩ {} "info" (JsVal.str longMsg)
        JsVal.undef none).2 = Except.ok () := by
  refine ⟨?_, rfl, ?_, ?_, storeInDB_snd _ _ _ _ _ _ _ _⟩
  · show (List.replicate 2001 'a').length = 2001
    exact List.length_replicate 2001 'a'
  · have htake : strTake (jsonStringify [] (safeMeta JsVal.undef)) 2000 = "\x7b\x7d" := by
      decide
    rw [storeInDB_ready_inserts [] {} ⟨some 0, true, 1⟩ {} "info" (JsVal.str longMsg)
      JsVal.undef none 0 rfl rfl rfl, htake]
    rfl
  · intro heap meta
    show (String.mk ((jsonStringify heap (safeMeta meta)).toList.take 2000)).length ≤ 2000
    simp

/-! ## Absent store configuration -/

/-- C8.  With no store settings in the configuration, creating the logger
performs no network operation and never starts initialization (the handle
stays null and the flag unset), and an `info` call issues no insert and no
network operation; under the default environment (no `LOG_LEVEL`, not dev),
`info("x")` still renders a console line. -/
theorem noStore_console_only (cfg : LoggerConfig) (heap : List JsObj) (env : Env)
    (ctx : StoreCtx) (ictx : InitCtx) (message meta : JsVal)
    (hmysql : cfg.mysql = none) :
    (createLogger cfg env ictx initialState).2 = {}
    ∧ (createLogger cfg env ictx initialState).1.conn = none
    ∧ (createLogger cfg env ictx initialState).1.dbInitialized = false
    ∧ (loggerInfo heap env (createLogger cfg env ictx initialState).1 ctx
        message meta).1.inserts = []
    ∧ (loggerInfo heap env (createLogger cfg env ictx initialState).1 ctx
        message meta).1.netOps = 0
    ∧ (cfg.logLevel = none → env.logLevelVar = none → env.envId ≠ "dev" →
        (loggerInfo heap env (createLogger cfg env ictx initialState).1 ctx
          (JsVal.str "x") meta).1.console ≠ []) := by
  have hcreate : createLogger cfg env ictx initialState =
      ({ initialState with currentLogLevel := resolveLogLevel cfg env }, {}) := by
    simp [createLogger, hmysql]
  refine ⟨?_, ?_, ?_, ?_, ?_, ?_⟩
  · rw [hcreate]
  · rw [hcreate]; rfl
  · rw [hcreate]; rfl
  · rw [hcreate]
    simp [loggerInfo, Trace.seq, storeInDB, initialState]
  · rw [hcreate]
    simp [loggerInfo, Trace.seq, storeInDB, initialState]
  · intro hcl henv hdev
    rw [hcreate]
    have hlevel : resolveLogLevel cfg env = 1 := by
      simp [resolveLogLevel, hcl, henv, hdev, logLevels]
    rw [hlevel]
    simp [loggerInfo, Trace.seq, logRender, stripAnsi_plain_info, logLevels,
      storeInDB, initialState]

theorem noStore_console_only_witness :
    ((⟨none, none⟩ : LoggerConfig).mysql = none) ∧
    ((createLogger ⟨none, none⟩ {} {} initialState).2 = {}
    ∧ (createLogger ⟨none, none⟩ {} {} initialState).1.conn = none
    ∧ (createLogger ⟨none, none⟩ {} {} initialState).1.dbInitialized = false
    ∧ (loggerInfo [] {} (createLogger ⟨none, none⟩ {} {} initialState).1 {}
        (JsVal.str "x") JsVal.undef).1.inserts = []
    ∧ (loggerInfo [] {} (createLogger ⟨none, none⟩ {} {} initialState).1 {}
        (JsVal.str "x") JsVal.undef).1.netOps = 0
    ∧ ((⟨none, none⟩ : LoggerConfig).logLevel = none → (({} : Env)).logLevelVar = none →
        (({} : Env)).envId ≠ "dev" →
        (loggerInfo [] {} (createLogger ⟨none, none⟩ {} {} initialState).1 {}
          (JsVal.str "x") JsVal.undef).1.console ≠ [])) :=
  ⟨rfl, noStore_console_only ⟨none, none⟩ [] {} {} {} (JsVal.str "x") JsVal.undef rfl⟩

end LogLib
